import Mathlib

/-!
Shallow embedding of `src/urlfragmentfetchserver.py` (class `UrlFragmentFetchServer`).

Byte streams and strings are modelled as `List Nat` (byte values); the code under
scrutiny only ever manipulates ASCII data, where Python's `bytes.decode()` is the
identity on byte values, so the byte-level model is faithful on the domain the
claims quantify over.
-/

namespace UrlFragmentFetch

/-- Byte values of an ASCII string literal (used to transcribe the source's literals). -/
def strBytes (s : String) : List Nat := s.data.map Char.toNat

/-- Python `string.hexdigits` membership test, as used by `bytes.fromhex` inside
`urllib.parse.unquote`. -/
def isHexDigit (c : Nat) : Bool :=
  (48 ≤ c && c ≤ 57) || (65 ≤ c && c ≤ 70) || (97 ≤ c && c ≤ 102)

/-- Numeric value of a hex digit character. -/
def hexVal (c : Nat) : Nat :=
  if c ≤ 57 then c - 48 else if c ≤ 70 then c - 55 else c - 87

/-- `urllib.parse.unquote` (line 145 of the source), at byte level: a `%` followed by
two hex digits is replaced by the denoted byte; a `%` not followed by two hex digits
is kept verbatim, as Python does. -/
def unquote : List Nat → List Nat
  | [] => []
  | 37 :: h1 :: h2 :: rest2 =>
    if isHexDigit h1 && isHexDigit h2 then
      (16 * hexVal h1 + hexVal h2) :: unquote rest2
    else
      37 :: unquote (h1 :: h2 :: rest2)
  | c :: rest => c :: unquote rest

/-- Helper for the splitting functions: prepend a byte to the first chunk. -/
def consHead (c : Nat) : List (List Nat) → List (List Nat)
  | [] => [[c]]
  | t :: ts => (c :: t) :: ts

/-- Python `str.split(sep)` for a single-character separator, as used on `'&'`
(line 139) and `'='` (line 146): keeps empty chunks, and splitting the empty
string yields one empty chunk. -/
def splitOnByte (sep : Nat) : List Nat → List (List Nat)
  | [] => [[]]
  | c :: rest =>
    if c = sep then [] :: splitOnByte sep rest else consHead c (splitOnByte sep rest)

/-- Fuel-driven worker for `pySplitSeq`; the fuel only serves to make the
recursion structural, and `pySplitSeq` always supplies enough of it. -/
def pySplitSeqF (sep : List Nat) : Nat → List Nat → List (List Nat)
  | _, [] => [[]]
  | 0, l => [l]
  | f + 1, c :: rest =>
    if sep ≠ [] ∧ sep.isPrefixOf (c :: rest) then
      [] :: pySplitSeqF sep f (List.drop (sep.length - 1) rest)
    else
      consHead c (pySplitSeqF sep f rest)

/-- Python `bytes.split(sep)` for a multi-byte separator (line 137,
`data.split(b'\r\n\r\n')`): a left-to-right non-overlapping scan. -/
def pySplitSeq (sep : List Nat) (l : List Nat) : List (List Nat) :=
  pySplitSeqF sep l.length l

/-- The double CRLF header/body separator `b'\r\n\r\n'`. -/
def crlf2 : List Nat := [13, 10, 13, 10]

/-- Python `list[-1]` on the (always nonempty) result of a split. -/
def lastSeg (sep : List Nat) (l : List Nat) : List Nat :=
  (pySplitSeq sep l).getLastD []

/-- The fragment of `urllib.parse.urlparse` (line 137): everything after the first
`'#'`, or empty when there is no `'#'`. -/
def extractFragment : List Nat → List Nat
  | [] => []
  | c :: rest => if c = 35 then rest else extractFragment rest

/-- Python dict assignment `d[k] = v` on an insertion-ordered association list:
an existing key keeps its position and gets the new value, a new key is appended. -/
def dictInsert (k v : List Nat) : List (List Nat × List Nat) → List (List Nat × List Nat)
  | [] => [(k, v)]
  | (k', v') :: rest =>
    if k' = k then (k', v) :: rest else (k', v') :: dictInsert k v rest

/-- Lines 145-147 of the source for one candidate pair: `unquote` the whole
segment, split the result on every `'='`, and read off entries `[0]` and `[1]`;
`none` models the `IndexError` raised when there is no `'='`. -/
def parsePair (seg : List Nat) : Option (List Nat × List Nat) :=
  match splitOnByte 61 (unquote seg) with
  | p0 :: p1 :: _ => some (p0, p1)
  | _ => none

/-- The `for fragment in returned_fragments` loop of lines 143-147, building the
local `final_data` dict; `none` models the first exception aborting the loop. -/
def parseLoop : List (List Nat) → List (List Nat × List Nat) →
    Option (List (List Nat × List Nat))
  | [], acc => some acc
  | seg :: rest, acc =>
    match parsePair seg with
    | some (k, v) => parseLoop rest (dictInsert k v acc)
    | none => none

/-- Lines 139-147: split the fragment on `'&'` and run the pair loop. -/
def parseFragments (frag : List Nat) : Option (List (List Nat × List Nat)) :=
  parseLoop (splitOnByte 38 frag) []

/-- Lines 137-147 applied to the bytes read off a POST request after the request
line: take the final segment of the `b'\r\n\r\n'` split, extract the URL fragment,
and parse it. -/
def postBodyParse (body : List Nat) : Option (List (List Nat × List Nat)) :=
  parseFragments (extractFragment (lastSeg crlf2 body))

/-! ### Session state, connection handler and timeout guard -/

/-- The status string set on a successful POST (line 150). -/
def successMsg : String := "Successfully obtained url fragments"

/-- The status string set when fragment parsing fails (line 159). -/
def failureMsg : String := "Something went wrong when retrieving the url fragments"

/-- The status string set by the timeout guard (line 51). -/
def timeoutMsg : String := "Took too long to be redirected to the localhost page."

/-- The bytes written on the GET branch before the page payload (lines 113-115). -/
def getRespHeader : List Nat :=
  strBytes "HTTP/1.0 200 OK\n" ++ strBytes "Content-Type: text/html\n" ++ strBytes "\n"

/-- The bytes written in response to a POST (line 162). -/
def postResp (body : List Nat) : List Nat :=
  strBytes "HTTP/1.1 200 OK\nContent-Type: text/html\n\n" ++ body

/-- The POST response body on success (line 153). -/
def successBody : List Nat :=
  strBytes "Information has been retrieved. You can now close this page."

/-- The POST response body on failure (line 158). -/
def failureBody : List Nat :=
  strBytes "Something went wrong. See application for detail\nYou can now close this page."

/-- The mutable session fields of `UrlFragmentFetchServer`:
`_keep_running`, `_connected`, `data` and `msg`. -/
structure SessionState where
  keepRunning : Bool
  connected : Bool
  data : Option (List (List Nat × List Nat))
  msg : Option String
deriving DecidableEq

/-- The field values established by `__init__` (lines 34-40). -/
def initialState : SessionState :=
  { keepRunning := true, connected := false, data := none, msg := none }

/-- `asyncio.StreamReader.readline` on the connection's byte stream: everything up
to and including the first newline, plus the unconsumed remainder (partial data at
end of stream). -/
def readLine : List Nat → List Nat × List Nat
  | [] => ([], [])
  | c :: rest =>
    if c = 10 then ([c], rest)
    else (c :: (readLine rest).1, (readLine rest).2)

/-- `asyncio.StreamReader.readuntil(b'\r\n')`: everything up to and including the
first CRLF, plus the remainder; `none` models the `IncompleteReadError` raised when
the stream ends without a CRLF. -/
def readUntilCRLF : List Nat → Option (List Nat × List Nat)
  | [] => none
  | 13 :: 10 :: rest => some ([13, 10], rest)
  | c :: rest => (readUntilCRLF rest).map fun p => (c :: p.1, p.2)

/-- `__handle_connection` (lines 92-168) as a function from the session state and
the connection's incoming byte stream to the new session state, the bytes written
to the socket, and the unconsumed part of the incoming stream. -/
def handleConnection (page : List Nat) (s : SessionState) (input : List Nat) :
    SessionState × List Nat × List Nat :=
  let s1 : SessionState := { s with connected := true }
  let line := (readLine input).1
  let rest := (readLine input).2
  if (strBytes "GET").isPrefixOf line then
    match readUntilCRLF rest with
    | none => (s1, [], [])
    | some p => ({ s1 with connected := false }, getRespHeader ++ page, p.2)
  else if (strBytes "POST").isPrefixOf line then
    match postBodyParse (rest.take 4096) with
    | some d =>
      ({ s1 with keepRunning := false, connected := false,
                 data := some d, msg := some successMsg },
       postResp successBody, rest.drop 4096)
    | none =>
      ({ s1 with keepRunning := false, connected := false, msg := some failureMsg },
       postResp failureBody, rest.drop 4096)
  else
    (s1, [], rest)

/-- The body of one iteration of `__time_out_shutdown`'s while loop (lines 50-52):
after the sleep, if the current time has reached `_timeout_time`, set the timeout
message and clear `_keep_running`. -/
def guardTick (deadline now : Nat) (s : SessionState) : SessionState :=
  if deadline ≤ now then { s with msg := some timeoutMsg, keepRunning := false } else s

/-- One scheduler event of a run: a wake-up of the timeout guard at a given clock
value, or an accepted connection delivering a byte stream to `__handle_connection`. -/
inductive SessionEvent where
  | wake (now : Nat)
  | conn (input : List Nat)
deriving DecidableEq

/-- The session state together with the observable state of the listening socket:
whether `__time_out_shutdown` has run its `self._server.close()` line (line 54),
and how many times a close effect has fired. -/
structure SysState where
  sess : SessionState
  guardDone : Bool
  closeCount : Nat
deriving DecidableEq

/-- Interleaved execution step: a guard wake-up first re-evaluates the while-loop
condition `self._keep_running or self._connected` (line 48); if it holds the loop
body runs (`guardTick`), otherwise the guard leaves the loop and closes the
listening socket (line 54), exactly once.  A connection event runs
`__handle_connection` over the shared session fields. -/
def sysStep (page : List Nat) (deadline : Nat) (st : SysState) : SessionEvent → SysState
  | .wake now =>
    if st.guardDone then st
    else if st.sess.keepRunning || st.sess.connected then
      { st with sess := guardTick deadline now st.sess }
    else
      { st with guardDone := true, closeCount := st.closeCount + 1 }
  | .conn input => { st with sess := (handleConnection page st.sess input).1 }

/-- A whole scheduled run: fold the step function over an event trace. -/
def sysRun (page : List Nat) (deadline : Nat) (events : List SessionEvent)
    (st : SysState) : SysState :=
  events.foldl (sysStep page deadline) st

/-- One step respects the shutdown discipline: either the close count is unchanged,
or the step fired from a state with `_keep_running` false and `_connected` false. -/
def stepClosesOnlyIdle (page : List Nat) (deadline : Nat) (st : SysState)
    (e : SessionEvent) : Bool :=
  ((sysStep page deadline st e).closeCount == st.closeCount) ||
    (!st.sess.keepRunning && !st.sess.connected)

/-- Every step of a trace respects the shutdown discipline. -/
def traceClosesOnlyIdle (page : List Nat) (deadline : Nat) :
    List SessionEvent → SysState → Bool
  | [], _ => true
  | e :: es, st =>
    stepClosesOnlyIdle page deadline st e &&
      traceClosesOnlyIdle page deadline es (sysStep page deadline st e)

/-! ### Definitions modelled from the spec (no counterpart under `src/`) -/

/-- Modelled from the spec: the character class that standard percent-encoding
(`urllib.parse.quote` with its default safe set) leaves unescaped.  The encoder
itself is not part of the repository (the browser performs it), so it is modelled
from the spec's phrase "percent-encoding M into a fragment string". -/
def isUnreservedByte (c : Nat) : Bool :=
  (65 ≤ c && c ≤ 90) || (97 ≤ c && c ≤ 122) || (48 ≤ c && c ≤ 57) ||
    (c == 95) || (c == 46) || (c == 45) || (c == 126) || (c == 47)

/-- Uppercase hex digit character for a value below 16. -/
def hexDigitChar (n : Nat) : Nat := if n < 10 then 48 + n else 55 + n

/-- Modelled from the spec: percent-encoding of a single byte. -/
def quoteByte (c : Nat) : List Nat :=
  if isUnreservedByte c then [c] else [37, hexDigitChar (c / 16), hexDigitChar (c % 16)]

/-- Modelled from the spec: percent-encoding of a byte string. -/
def quoteBytes (s : List Nat) : List Nat := s.flatMap quoteByte

/-- Modelled from the spec: percent-encode a mapping into a fragment string,
`k1=v1&k2=v2&...`. -/
def encodeMapping : List (List Nat × List Nat) → List Nat
  | [] => []
  | kv :: rest =>
    (quoteBytes kv.1 ++ 61 :: quoteBytes kv.2) ++
      (if rest.isEmpty then [] else 38 :: encodeMapping rest)

/-- The mapping denoted by a pair sequence under Python dict semantics
(insertion order, last write wins). -/
def pyDict (M : List (List Nat × List Nat)) : List (List Nat × List Nat) :=
  M.foldl (fun d kv => dictInsert kv.1 kv.2 d) []

/-- A concrete redirect-URL prefix with no `'#'` in it, used to embed fragments in
POST bodies. -/
def urlPre : List Nat := strBytes "http://localhost:1000/"

/-- A POST body as `__handle_connection` reads it after the request line: a header
section, the blank-line separator, and the payload URL. -/
def postBody (url : List Nat) : List Nat := strBytes "Host: localhost" ++ crlf2 ++ url

/-- Modelled from the spec's words for claim C2: split a candidate pair on the
FIRST `'='` into key and value, then percent-decode the key and the value
separately. -/
def specParsePair (seg : List Nat) : Option (List Nat × List Nat) :=
  if 61 ∈ seg then
    some (unquote (seg.takeWhile (· != 61)), unquote ((seg.dropWhile (· != 61)).tail))
  else none

/-- Modelled from the spec's words for claim C2: the pair loop with
`specParsePair` in place of the source's pair handling. -/
def specParseLoop : List (List Nat) → List (List Nat × List Nat) →
    Option (List (List Nat × List Nat))
  | [], acc => some acc
  | seg :: rest, acc =>
    match specParsePair seg with
    | some kv => specParseLoop rest (dictInsert kv.1 kv.2 acc)
    | none => none

/-- Modelled from the spec's words for claim C2: split the fragment on `'&'`,
then handle each candidate pair by splitting on the first `'='` and decoding the
two sides separately. -/
def specFragmentParse (frag : List Nat) : Option (List (List Nat × List Nat)) :=
  specParseLoop (splitOnByte 38 frag) []

/-- The amended description of the source's pair handling: percent-decode the
whole segment first, then take the text before the first `'='` as key and the text
between the first and second `'='` as value, failing when the decoded segment has
no `'='`. -/
def amendedPair (seg : List Nat) : Option (List Nat × List Nat) :=
  let d := unquote seg
  if 61 ∈ d then
    some (d.takeWhile (· != 61), ((d.dropWhile (· != 61)).tail).takeWhile (· != 61))
  else none

/-- The pair loop with `amendedPair`. -/
def amendedLoop : List (List Nat) → List (List Nat × List Nat) →
    Option (List (List Nat × List Nat))
  | [], acc => some acc
  | seg :: rest, acc =>
    match amendedPair seg with
    | some kv => amendedLoop rest (dictInsert kv.1 kv.2 acc)
    | none => none

/-- The amended fragment parser: decode-first pair handling over the `'&'` split. -/
def amendedParse (frag : List Nat) : Option (List (List Nat × List Nat)) :=
  amendedLoop (splitOnByte 38 frag) []

example : splitOnByte 38 [] = [[]] := by decide
example : splitOnByte 38 (strBytes "a=1&b=2") = [strBytes "a=1", strBytes "b=2"] := by decide
example : unquote (strBytes "chat%3Aread") = strBytes "chat:read" := by decide
example : unquote (strBytes "%4%41%") = strBytes "%4A%" := by decide
example : parsePair (strBytes "k=a=b") = some (strBytes "k", strBytes "a") := by decide
example : parsePair (strBytes "token123") = none := by decide
example : parseFragments (strBytes "access_token=abc&scope=chat%3Aread") =
    some [(strBytes "access_token", strBytes "abc"), (strBytes "scope", strBytes "chat:read")] := by
  decide
example : parseFragments [] = none := by decide
example : lastSeg crlf2 (strBytes "Host: a\r\nAccept: b\r\n\r\nhttp://x/#k=v") =
    strBytes "http://x/#k=v" := by decide
example : extractFragment (strBytes "http://localhost:1000/") = [] := by decide

example :
    handleConnection [] initialState (strBytes "GET / HTTP/1.1\r\nHost: a\r\nAccept: b\r\n\r\n") =
      (initialState, getRespHeader, strBytes "Accept: b\r\n\r\n") := by decide

example :
    (handleConnection [] initialState (strBytes "HEAD / HTTP/1.1\r\n")).1 =
      { initialState with connected := true } := by decide

example :
    (handleConnection [] initialState (strBytes "POST / HTTP/1.1\r\n" ++
        postBody (urlPre ++ 35 :: strBytes "access_token=abc&scope=chat%3Aread"))).1 =
      { keepRunning := false, connected := false,
        data := some [(strBytes "access_token", strBytes "abc"),
                      (strBytes "scope", strBytes "chat:read")],
        msg := some successMsg } := by decide

example :
    (handleConnection [] initialState (strBytes "POST / HTTP/1.1\r\n" ++
        postBody (urlPre ++ 35 :: strBytes "token123"))).1 =
      { keepRunning := false, connected := false, data := none,
        msg := some failureMsg } := by decide

/-! ### Rewrite lemmas for the embedded primitives -/

theorem unquote_nil : unquote [] = [] := rfl

theorem unquote_safe (c : Nat) (l : List Nat) (hc : c ≠ 37) :
    unquote (c :: l) = c :: unquote l := by
  match l with
  | [] => simp [unquote]
  | [d] => simp [unquote]
  | d :: e :: l' =>
    rw [unquote.eq_def]
    split
    · rename_i heq; simp at heq
    · rename_i heq; injection heq with h1 _; exact absurd h1 hc
    · rename_i heq
      injection heq with h1 h2
      subst h1
      rw [h2]

theorem unquote_esc (h1 h2 : Nat) (r : List Nat)
    (H1 : isHexDigit h1 = true) (H2 : isHexDigit h2 = true) :
    unquote (37 :: h1 :: h2 :: r) = (16 * hexVal h1 + hexVal h2) :: unquote r := by
  simp [unquote, H1, H2]

theorem splitOnByte_nil (sep : Nat) : splitOnByte sep [] = [[]] := rfl

theorem splitOnByte_ne_nil (sep : Nat) (l : List Nat) : splitOnByte sep l ≠ [] := by
  induction l with
  | nil => simp [splitOnByte]
  | cons c rest ih =>
    simp only [splitOnByte]
    split
    · simp
    · match h : splitOnByte sep rest with
      | [] => exact absurd h ih
      | t :: ts => simp [consHead]

theorem splitOn_not_mem (sep : Nat) (l : List Nat) (h : sep ∉ l) :
    splitOnByte sep l = [l] := by
  induction l with
  | nil => rfl
  | cons c rest ih =>
    have hc : c ≠ sep := fun he => h (he ▸ List.mem_cons_self c rest)
    have hr : sep ∉ rest := fun hm => h (List.mem_cons_of_mem c hm)
    simp [splitOnByte, hc, ih hr, consHead]

theorem splitOn_append_sep (sep : Nat) (a b : List Nat) (h : sep ∉ a) :
    splitOnByte sep (a ++ sep :: b) = a :: splitOnByte sep b := by
  induction a with
  | nil => simp [splitOnByte]
  | cons c a' ih =>
    have hc : c ≠ sep := fun he => h (he ▸ List.mem_cons_self c a')
    have ha : sep ∉ a' := fun hm => h (List.mem_cons_of_mem c hm)
    simp [splitOnByte, hc, ih ha, consHead]

theorem splitOn_mem (sep : Nat) (l : List Nat) (h : sep ∈ l) :
    splitOnByte sep l =
      l.takeWhile (· != sep) :: splitOnByte sep ((l.dropWhile (· != sep)).tail) := by
  induction l with
  | nil => cases h
  | cons c rest ih =>
    by_cases hc : c = sep
    · subst hc
      simp [splitOnByte, List.takeWhile, List.dropWhile]
    · have hr : sep ∈ rest := by
        rcases List.mem_cons.mp h with h' | h'
        · exact absurd h'.symm hc
        · exact h'
      have hb : (c != sep) = true := by simp [hc]
      simp only [splitOnByte, if_neg hc, ih hr, consHead, List.takeWhile, List.dropWhile, hb]

theorem takeWhile_eq_self_of (p : Nat → Bool) (l : List Nat) (h : ∀ x ∈ l, p x = true) :
    l.takeWhile p = l :=
  List.takeWhile_eq_self_iff.mpr h

theorem pySplitSeqF_fuel (sep : List Nat) (f g : Nat) (l : List Nat)
    (hf : l.length ≤ f) (hg : l.length ≤ g) :
    pySplitSeqF sep f l = pySplitSeqF sep g l := by
  induction f generalizing g l with
  | zero =>
    match l with
    | [] => cases g <;> rfl
    | c :: rest => simp at hf
  | succ f' ih =>
    match l with
    | [] => cases g <;> rfl
    | c :: rest =>
      match g with
      | 0 => simp at hg
      | g' + 1 =>
        simp only [pySplitSeqF]
        split
        · have hd : (List.drop (sep.length - 1) rest).length ≤ f' := by
            simp only [List.length_drop]
            simp only [List.length_cons] at hf
            omega
          have hd' : (List.drop (sep.length - 1) rest).length ≤ g' := by
            simp only [List.length_drop]
            simp only [List.length_cons] at hg
            omega
          rw [ih g' (List.drop (sep.length - 1) rest) hd hd']
        · have hr : rest.length ≤ f' := by
            simp only [List.length_cons] at hf; omega
          have hr' : rest.length ≤ g' := by
            simp only [List.length_cons] at hg; omega
          rw [ih g' rest hr hr']

theorem pySplit_cons_pos (sep : List Nat) (c : Nat) (rest : List Nat)
    (h : sep ≠ [] ∧ sep.isPrefixOf (c :: rest)) :
    pySplitSeq sep (c :: rest) = [] :: pySplitSeq sep (List.drop (sep.length - 1) rest) := by
  unfold pySplitSeq
  simp only [List.length_cons, pySplitSeqF, if_pos h]
  rw [pySplitSeqF_fuel sep rest.length (List.drop (sep.length - 1) rest).length
    (List.drop (sep.length - 1) rest)
    (by simp only [List.length_drop]; omega) (Nat.le_refl _)]

theorem pySplit_cons_neg (sep : List Nat) (c : Nat) (rest : List Nat)
    (h : ¬(sep ≠ [] ∧ sep.isPrefixOf (c :: rest))) :
    pySplitSeq sep (c :: rest) = consHead c (pySplitSeq sep rest) := by
  unfold pySplitSeq
  simp only [List.length_cons, pySplitSeqF, if_neg h]

theorem crlf2_head_mismatch (c : Nat) (rest : List Nat) (hc : c ≠ 13) :
    ¬(crlf2 ≠ [] ∧ crlf2.isPrefixOf (c :: rest)) := by
  rintro ⟨-, hp⟩
  simp only [crlf2, List.isPrefixOf, Bool.and_eq_true, beq_iff_eq] at hp
  exact hc hp.1.symm

theorem pySplit_no13 (l : List Nat) (h : 13 ∉ l) : pySplitSeq crlf2 l = [l] := by
  induction l with
  | nil => rfl
  | cons c rest ih =>
    have hc : c ≠ 13 := fun he => h (he ▸ List.mem_cons_self c rest)
    have hr : 13 ∉ rest := fun hm => h (List.mem_cons_of_mem c hm)
    rw [pySplit_cons_neg crlf2 c rest (crlf2_head_mismatch c rest hc), ih hr]
    rfl

theorem pySplit_double (a b : List Nat) (ha : 13 ∉ a) (hb : 13 ∉ b) :
    pySplitSeq crlf2 (a ++ (crlf2 ++ b)) = [a, b] := by
  induction a with
  | nil =>
    have hpre : crlf2 ≠ [] ∧ crlf2.isPrefixOf (13 :: (10 :: 13 :: 10 :: b)) := by
      constructor
      · simp [crlf2]
      · simp [crlf2, List.isPrefixOf]
    rw [List.nil_append]
    show pySplitSeq crlf2 (13 :: (10 :: 13 :: 10 :: b)) = [[], b]
    rw [pySplit_cons_pos crlf2 13 (10 :: 13 :: 10 :: b) hpre]
    have : List.drop (crlf2.length - 1) (10 :: 13 :: 10 :: b) = b := by
      simp [crlf2]
    rw [this, pySplit_no13 b hb]
  | cons c a' ih =>
    have hc : c ≠ 13 := fun he => ha (he ▸ List.mem_cons_self c a')
    have ha' : 13 ∉ a' := fun hm => ha (List.mem_cons_of_mem c hm)
    rw [List.cons_append, pySplit_cons_neg crlf2 c (a' ++ (crlf2 ++ b))
      (crlf2_head_mismatch c _ hc), ih ha']
    rfl

theorem lastSeg_double (a b : List Nat) (ha : 13 ∉ a) (hb : 13 ∉ b) :
    lastSeg crlf2 (a ++ (crlf2 ++ b)) = b := by
  rw [lastSeg, pySplit_double a b ha hb]
  rfl

theorem extractFragment_append (pre rest : List Nat) (h : 35 ∉ pre) :
    extractFragment (pre ++ 35 :: rest) = rest := by
  induction pre with
  | nil => simp [extractFragment]
  | cons c p ih =>
    have hc : c ≠ 35 := fun he => h (he ▸ List.mem_cons_self c p)
    have hp : 35 ∉ p := fun hm => h (List.mem_cons_of_mem c hm)
    simp [extractFragment, hc, ih hp]

theorem extractFragment_no35 (l : List Nat) (h : 35 ∉ l) : extractFragment l = [] := by
  induction l with
  | nil => rfl
  | cons c rest ih =>
    have hc : c ≠ 35 := fun he => h (he ▸ List.mem_cons_self c rest)
    have hr : 35 ∉ rest := fun hm => h (List.mem_cons_of_mem c hm)
    simp [extractFragment, hc, ih hr]

theorem readLine_append (a b : List Nat) (h : 10 ∉ a) :
    readLine (a ++ 10 :: b) = (a ++ [10], b) := by
  induction a with
  | nil => simp [readLine]
  | cons c a' ih =>
    have hc : c ≠ 10 := fun he => h (he ▸ List.mem_cons_self c a')
    have ha : 10 ∉ a' := fun hm => h (List.mem_cons_of_mem c hm)
    simp [readLine, hc, ih ha]

/-! ### Percent-encoding round trip -/

theorem isUnreservedByte_ne_37 (c : Nat) (h : isUnreservedByte c = true) : c ≠ 37 := by
  intro he
  subst he
  simp [isUnreservedByte] at h

theorem isHexDigit_hexDigitChar (n : Nat) (h : n < 16) :
    isHexDigit (hexDigitChar n) = true := by
  simp only [hexDigitChar, isHexDigit]
  split <;> rename_i h' <;> simp <;> omega

theorem hexVal_hexDigitChar (n : Nat) (h : n < 16) : hexVal (hexDigitChar n) = n := by
  simp only [hexDigitChar, hexVal]
  split <;> rename_i h' <;> (repeat' split) <;> omega

theorem unquote_quoteByte (c : Nat) (r : List Nat) (h : c ≤ 255) :
    unquote (quoteByte c ++ r) = c :: unquote r := by
  by_cases hu : isUnreservedByte c = true
  · rw [quoteByte, if_pos hu]
    exact unquote_safe c r (isUnreservedByte_ne_37 c hu)
  · rw [quoteByte, if_neg hu]
    have hdiv : c / 16 < 16 := by omega
    have hmod : c % 16 < 16 := by omega
    show unquote (37 :: hexDigitChar (c / 16) :: hexDigitChar (c % 16) :: r) = c :: unquote r
    rw [unquote_esc _ _ r (isHexDigit_hexDigitChar _ hdiv) (isHexDigit_hexDigitChar _ hmod),
      hexVal_hexDigitChar _ hdiv, hexVal_hexDigitChar _ hmod]
    congr 1
    omega

theorem unquote_quote_append (s r : List Nat) (h : ∀ c ∈ s, c ≤ 255) :
    unquote (quoteBytes s ++ r) = s ++ unquote r := by
  induction s with
  | nil => simp [quoteBytes]
  | cons c s' ih =>
    have hc : c ≤ 255 := h c (List.mem_cons_self c s')
    have hs : ∀ x ∈ s', x ≤ 255 := fun x hx => h x (List.mem_cons_of_mem c hx)
    rw [quoteBytes, List.flatMap_cons, List.append_assoc]
    show unquote (quoteByte c ++ (quoteBytes s' ++ r)) = (c :: s') ++ unquote r
    rw [unquote_quoteByte c _ hc, ih hs]
    rfl

theorem hexDigitChar_ge_48 (n : Nat) : 48 ≤ hexDigitChar n := by
  unfold hexDigitChar
  split <;> omega

theorem quoteByte_ne_38_13 (c d : Nat) (hd : d ∈ quoteByte c) : d ≠ 38 ∧ d ≠ 13 := by
  by_cases hu : isUnreservedByte c = true
  · rw [quoteByte, if_pos hu] at hd
    simp only [List.mem_singleton] at hd
    subst hd
    constructor <;> intro he <;> subst he <;> simp [isUnreservedByte] at hu
  · rw [quoteByte, if_neg hu] at hd
    simp only [List.mem_cons, List.not_mem_nil, or_false] at hd
    rcases hd with h | h | h
    · omega
    · have := hexDigitChar_ge_48 (c / 16); omega
    · have := hexDigitChar_ge_48 (c % 16); omega

theorem quoteBytes_ne_38_13 (s : List Nat) (d : Nat) (hd : d ∈ quoteBytes s) :
    d ≠ 38 ∧ d ≠ 13 := by
  rw [quoteBytes, List.mem_flatMap] at hd
  rcases hd with ⟨c, -, hdc⟩
  exact quoteByte_ne_38_13 c d hdc

theorem unquote_quote (s : List Nat) (h : ∀ c ∈ s, c ≤ 255) :
    unquote (quoteBytes s) = s := by
  have := unquote_quote_append s [] h
  simpa [unquote_nil] using this

/-! ### Fragment-parsing lemmas -/

theorem parsePair_of_not_mem (seg : List Nat) (h : 61 ∉ unquote seg) :
    parsePair seg = none := by
  rw [parsePair, splitOn_not_mem 61 (unquote seg) h]

theorem parsePair_eq_of_mem (seg : List Nat) (h : 61 ∈ unquote seg) :
    parsePair seg = some ((unquote seg).takeWhile (· != 61),
      (((unquote seg).dropWhile (· != 61)).tail).takeWhile (· != 61)) := by
  rw [parsePair, splitOn_mem 61 (unquote seg) h]
  by_cases h1 : 61 ∈ ((unquote seg).dropWhile (· != 61)).tail
  · rw [splitOn_mem 61 _ h1]
  · rw [splitOn_not_mem 61 _ h1]
    have ht : (((unquote seg).dropWhile (· != 61)).tail).takeWhile (· != 61) =
        ((unquote seg).dropWhile (· != 61)).tail :=
      takeWhile_eq_self_of _ _ (fun x hx => by
        simp only [bne_iff_ne, ne_eq]
        exact fun he => h1 (he ▸ hx))
    rw [ht]

theorem parseLoop_none (segs : List (List Nat)) (acc : List (List Nat × List Nat))
    (h : ∃ seg ∈ segs, parsePair seg = none) : parseLoop segs acc = none := by
  induction segs generalizing acc with
  | nil => rcases h with ⟨seg, hmem, -⟩; cases hmem
  | cons x xs ih =>
    rcases h with ⟨seg, hmem, hf⟩
    rcases List.mem_cons.mp hmem with he | hm
    · subst he
      simp [parseLoop, hf]
    · cases hp : parsePair x with
      | none => simp [parseLoop, hp]
      | some kv =>
        simp only [parseLoop, hp]
        exact ih _ ⟨seg, hm, hf⟩

theorem piece_no_38 (k v : List Nat) :
    (38 : Nat) ∉ quoteBytes k ++ 61 :: quoteBytes v := by
  intro hm
  rcases List.mem_append.mp hm with h | h
  · exact (quoteBytes_ne_38_13 _ _ h).1 rfl
  · rcases List.mem_cons.mp h with he | h
    · exact absurd he (by decide)
    · exact (quoteBytes_ne_38_13 _ _ h).1 rfl

theorem piece_no_13 (k v : List Nat) :
    (13 : Nat) ∉ quoteBytes k ++ 61 :: quoteBytes v := by
  intro hm
  rcases List.mem_append.mp hm with h | h
  · exact (quoteBytes_ne_38_13 _ _ h).2 rfl
  · rcases List.mem_cons.mp h with he | h
    · exact absurd he (by decide)
    · exact (quoteBytes_ne_38_13 _ _ h).2 rfl

theorem encodeMapping_cons_nil (kv : List Nat × List Nat) :
    encodeMapping [kv] = quoteBytes kv.1 ++ 61 :: quoteBytes kv.2 := by
  simp [encodeMapping]

theorem encodeMapping_cons_cons (kv kv2 : List Nat × List Nat)
    (rest : List (List Nat × List Nat)) :
    encodeMapping (kv :: kv2 :: rest) =
      (quoteBytes kv.1 ++ 61 :: quoteBytes kv.2) ++
        38 :: encodeMapping (kv2 :: rest) := by
  simp [encodeMapping]

theorem encodeMapping_no_13 (M : List (List Nat × List Nat)) :
    (13 : Nat) ∉ encodeMapping M := by
  induction M with
  | nil => simp [encodeMapping]
  | cons kv rest ih =>
    cases rest with
    | nil =>
      rw [encodeMapping_cons_nil]
      exact piece_no_13 kv.1 kv.2
    | cons kv2 rest2 =>
      intro hm
      rw [encodeMapping_cons_cons] at hm
      rcases List.mem_append.mp hm with h | h
      · exact piece_no_13 kv.1 kv.2 h
      · rcases List.mem_cons.mp h with he | h''
        · exact absurd he (by decide)
        · exact ih h''

theorem splitAmp_encode (M : List (List Nat × List Nat)) (hne : M ≠ []) :
    splitOnByte 38 (encodeMapping M) =
      M.map (fun kv => quoteBytes kv.1 ++ 61 :: quoteBytes kv.2) := by
  induction M with
  | nil => exact absurd rfl hne
  | cons kv rest ih =>
    cases rest with
    | nil =>
      rw [encodeMapping_cons_nil, splitOn_not_mem 38 _ (piece_no_38 kv.1 kv.2)]
      rfl
    | cons kv2 rest2 =>
      rw [encodeMapping_cons_cons,
        splitOn_append_sep 38 _ _ (piece_no_38 kv.1 kv.2), ih (by simp)]
      rfl

theorem parsePair_piece (k v : List Nat)
    (hk255 : ∀ c ∈ k, c ≤ 255) (hk61 : (61 : Nat) ∉ k)
    (hv255 : ∀ c ∈ v, c ≤ 255) (hv61 : (61 : Nat) ∉ v) :
    parsePair (quoteBytes k ++ 61 :: quoteBytes v) = some (k, v) := by
  have hq : unquote (quoteBytes k ++ 61 :: quoteBytes v) = k ++ 61 :: v := by
    rw [unquote_quote_append k _ hk255, unquote_safe 61 _ (by decide),
      unquote_quote v hv255]
  rw [parsePair, hq, splitOn_append_sep 61 k v hk61, splitOn_not_mem 61 v hv61]

theorem parseLoop_map (M : List (List Nat × List Nat)) (acc : List (List Nat × List Nat))
    (h : ∀ kv ∈ M, parsePair (quoteBytes kv.1 ++ 61 :: quoteBytes kv.2) = some kv) :
    parseLoop (M.map fun kv => quoteBytes kv.1 ++ 61 :: quoteBytes kv.2) acc =
      some (M.foldl (fun d kv => dictInsert kv.1 kv.2 d) acc) := by
  induction M generalizing acc with
  | nil => rfl
  | cons kv rest ih =>
    rw [List.map_cons]
    simp only [parseLoop, h kv (List.mem_cons_self kv rest)]
    rw [ih _ (fun x hx => h x (List.mem_cons_of_mem kv hx)), List.foldl_cons]

/-! ### Connection-handler unfolding lemmas -/

theorem readLine_concrete_line (a rest : List Nat) (h10 : 10 ∉ a) :
    readLine ((a ++ [10]) ++ rest) = (a ++ [10], rest) := by
  rw [List.append_assoc, List.singleton_append]
  exact readLine_append a rest h10

theorem postLine_split :
    strBytes "POST / HTTP/1.1\r\n" = strBytes "POST / HTTP/1.1\r" ++ [10] := by decide

theorem get_npfx_postline :
    (strBytes "GET").isPrefixOf (strBytes "POST / HTTP/1.1\r" ++ [10]) = false := by decide

theorem post_pfx_postline :
    (strBytes "POST").isPrefixOf (strBytes "POST / HTTP/1.1\r" ++ [10]) = true := by decide

theorem handleConnection_post_fail (page : List Nat) (s : SessionState) (rest : List Nat)
    (hp : postBodyParse (rest.take 4096) = none) :
    handleConnection page s (strBytes "POST / HTTP/1.1\r\n" ++ rest) =
      ({ s with keepRunning := false, connected := false, msg := some failureMsg },
       postResp failureBody, rest.drop 4096) := by
  rw [postLine_split]
  have hrl := readLine_concrete_line (strBytes "POST / HTTP/1.1\r") rest (by decide)
  simp only [handleConnection, hrl, get_npfx_postline, post_pfx_postline,
    Bool.false_eq_true, if_false, if_true, hp]

theorem get_pfx_getline (a : List Nat) :
    (strBytes "GET").isPrefixOf ((strBytes "GET" ++ a) ++ [10]) = true := by
  rw [List.isPrefixOf_iff_prefix, List.append_assoc]
  exact List.prefix_append _ _

theorem parsePair_eq_amendedPair (seg : List Nat) : parsePair seg = amendedPair seg := by
  by_cases h : 61 ∈ unquote seg
  · rw [parsePair_eq_of_mem seg h, amendedPair]
    simp [h]
  · rw [parsePair_of_not_mem seg h, amendedPair]
    simp [h]

theorem parseLoop_eq_amendedLoop (segs : List (List Nat))
    (acc : List (List Nat × List Nat)) : parseLoop segs acc = amendedLoop segs acc := by
  induction segs generalizing acc with
  | nil => rfl
  | cons x xs ih =>
    rw [parseLoop, amendedLoop, parsePair_eq_amendedPair x]
    cases hx : amendedPair x with
    | none => rfl
    | some kv =>
      cases kv
      exact ih _

/-! ### Guard and whole-run lemmas -/

theorem guardTick_connected (deadline t : Nat) (s : SessionState) :
    (guardTick deadline t s).connected = s.connected := by
  unfold guardTick
  split <;> rfl

theorem handleConnection_noise_initial (page : List Nat) :
    handleConnection page initialState (strBytes "HEAD / HTTP/1.1\r\n") =
      ({ initialState with connected := true }, [], []) := rfl

theorem wakes_preserve_connected (page : List Nat) (deadline : Nat) (wakes : List Nat)
    (st : SysState) (hc : st.sess.connected = true) (hg : st.guardDone = false) :
    (sysRun page deadline (wakes.map SessionEvent.wake) st).sess.connected = true ∧
    (sysRun page deadline (wakes.map SessionEvent.wake) st).guardDone = false ∧
    (sysRun page deadline (wakes.map SessionEvent.wake) st).closeCount = st.closeCount := by
  induction wakes generalizing st with
  | nil => exact ⟨hc, hg, rfl⟩
  | cons t ts ih =>
    have hcond : (st.sess.keepRunning || st.sess.connected) = true := by
      rw [hc, Bool.or_true]
    have hstep : sysStep page deadline st (SessionEvent.wake t) =
        { st with sess := guardTick deadline t st.sess } := by
      simp only [sysStep, hg, Bool.false_eq_true, if_false, hcond, if_true]
    have hc' : ({ st with sess := guardTick deadline t st.sess } : SysState).sess.connected
        = true := by
      rw [show ({ st with sess := guardTick deadline t st.sess } : SysState).sess =
        guardTick deadline t st.sess from rfl, guardTick_connected, hc]
    rw [List.map_cons, sysRun, List.foldl_cons, hstep]
    exact ih _ hc' hg

/-- Invariant tying the close count to whether the guard has finished. -/
def SysInv (st : SysState) : Prop :=
  (st.guardDone = false ∧ st.closeCount = 0) ∨ (st.guardDone = true ∧ st.closeCount = 1)

theorem sysStep_inv (page : List Nat) (deadline : Nat) (st : SysState) (e : SessionEvent)
    (h : SysInv st) : SysInv (sysStep page deadline st e) := by
  cases e with
  | wake t =>
    simp only [sysStep]
    by_cases hg : st.guardDone = true
    · rw [if_pos hg]
      exact h
    · rw [if_neg hg]
      by_cases hk : (st.sess.keepRunning || st.sess.connected) = true
      · rw [if_pos hk]
        exact h
      · rw [if_neg hk]
        rcases h with ⟨-, h0⟩ | ⟨hg', -⟩
        · right
          refine ⟨rfl, ?_⟩
          show st.closeCount + 1 = 1
          omega
        · exact absurd hg' hg
  | conn input => exact h

theorem sysRun_inv (page : List Nat) (deadline : Nat) (events : List SessionEvent)
    (st : SysState) (h : SysInv st) : SysInv (sysRun page deadline events st) := by
  induction events generalizing st with
  | nil => exact h
  | cons e es ih =>
    rw [sysRun, List.foldl_cons]
    exact ih _ (sysStep_inv page deadline st e h)

theorem stepClosesOnlyIdle_true (page : List Nat) (deadline : Nat) (st : SysState)
    (e : SessionEvent) : stepClosesOnlyIdle page deadline st e = true := by
  cases e with
  | wake t =>
    simp only [stepClosesOnlyIdle, sysStep]
    by_cases hg : st.guardDone
    · simp [hg]
    · by_cases hk : (st.sess.keepRunning || st.sess.connected) = true
      · simp [hg, hk]
      · have hk' : st.sess.keepRunning = false ∧ st.sess.connected = false := by
          constructor <;> revert hk <;> cases st.sess.keepRunning <;>
            cases st.sess.connected <;> simp
        simp [hg, hk, hk'.1, hk'.2]
  | conn input => simp [stepClosesOnlyIdle, sysStep]

theorem traceClosesOnlyIdle_true (page : List Nat) (deadline : Nat)
    (events : List SessionEvent) (st : SysState) :
    traceClosesOnlyIdle page deadline events st = true := by
  induction events generalizing st with
  | nil => rfl
  | cons e es ih =>
    rw [traceClosesOnlyIdle, stepClosesOnlyIdle_true, Bool.true_and]
    exact ih _

/-! ### The claims -/

/-- Claim C1, counterexample: the round trip fails for the empty mapping.
Encoding the empty mapping gives an empty fragment; the parser splits it into one
empty candidate pair, which has no `'='`, so parsing is a failure (`none`) rather
than the empty mapping the claim asserts. -/
theorem roundtrip_fails_on_empty_mapping :
    postBodyParse (postBody (urlPre ++ 35 :: encodeMapping [])) ≠ some (pyDict []) := by
  decide

/-- Claim C1, amended to nonempty mappings: for every nonempty mapping of
printable-string keys and values containing no raw `'&'` or `'='`,
percent-encoding the mapping into a fragment string, embedding it in a POST body
URL after `'#'`, and running the fragment-parsing step of `__handle_connection`
yields exactly the mapping under Python dict semantics, with last-write-wins on
deliberately duplicated keys. -/
theorem roundtrip_nonempty_mapping (M : List (List Nat × List Nat)) (hne : M ≠ [])
    (hgood : ∀ kv ∈ M, (∀ c ∈ kv.1, 32 ≤ c ∧ c ≤ 126 ∧ c ≠ 38 ∧ c ≠ 61) ∧
      (∀ c ∈ kv.2, 32 ≤ c ∧ c ≤ 126 ∧ c ≠ 38 ∧ c ≠ 61)) :
    postBodyParse (postBody (urlPre ++ 35 :: encodeMapping M)) = some (pyDict M) := by
  have h13url : (13 : Nat) ∉ urlPre ++ 35 :: encodeMapping M := by
    intro hm
    rcases List.mem_append.mp hm with h | h
    · revert h; decide
    · rcases List.mem_cons.mp h with he | h'
      · exact absurd he (by decide)
      · exact encodeMapping_no_13 M h'
  have hlast : lastSeg crlf2 (strBytes "Host: localhost" ++
      (crlf2 ++ (urlPre ++ 35 :: encodeMapping M))) = urlPre ++ 35 :: encodeMapping M :=
    lastSeg_double _ _ (by decide) h13url
  rw [postBodyParse, postBody, List.append_assoc, hlast,
    extractFragment_append _ _ (by decide), parseFragments, splitAmp_encode M hne]
  rw [parseLoop_map M [] (fun kv hkv => by
    rcases hgood kv hkv with ⟨hk, hv⟩
    exact parsePair_piece kv.1 kv.2
      (fun c hc => by have := (hk c hc).2.1; omega)
      (fun hm => (hk 61 hm).2.2.2 rfl)
      (fun c hc => by have := (hv c hc).2.1; omega)
      (fun hm => (hv 61 hm).2.2.2 rfl))]
  rfl

/-- Claim C1, witness: a concrete nonempty mapping with a deliberately duplicated
key round-trips to the last-write-wins dictionary. -/
theorem roundtrip_nonempty_mapping_witness :
    postBodyParse (postBody (urlPre ++ 35 :: encodeMapping
      [(strBytes "k1", strBytes "v1"), (strBytes "k1", strBytes "v2")])) =
      some [(strBytes "k1", strBytes "v2")] :=
  (roundtrip_nonempty_mapping
    [(strBytes "k1", strBytes "v1"), (strBytes "k1", strBytes "v2")]
    (by decide) (by decide)).trans (by decide)

/-- Claim C2, counterexample: on the fragment `k=a=b` the source's parser yields
the mapping `{k: a}` while the claimed algorithm (split on the first `'='`, then
decode key and value separately) yields `{k: a=b}`; the two disagree. -/
theorem parser_differs_from_split_first_decode_later :
    parseFragments (strBytes "k=a=b") ≠ specFragmentParse (strBytes "k=a=b") := by
  decide

/-- Claim C2, amended: the fragment parser splits the text after `'#'` on `'&'`,
then for each candidate pair percent-decodes the WHOLE segment first and splits
the decoded text on every `'='`, keeping the part before the first `'='` as key
and the part between the first and second `'='` as value; a decoded segment with
no `'='` is a parse failure. -/
theorem parser_decodes_before_splitting (frag : List Nat) :
    parseFragments frag = amendedParse frag := by
  rw [parseFragments, amendedParse]
  exact parseLoop_eq_amendedLoop _ []

/-- Claim C3, theorem: a POST whose fragment contains a candidate pair with no
`'='` after decoding is a parse failure, not a crash: `self.data` stays unset,
the failure status message is set, a 200 OK response with the failure body is
still written, and `self._keep_running` becomes false so the session terminates. -/
theorem bare_key_fragment_fails_cleanly (page : List Nat) (s : SessionState)
    (rest frag : List Nat) (hdata : s.data = none) (hlen : rest.length ≤ 4096)
    (hbody : lastSeg crlf2 rest = urlPre ++ 35 :: frag)
    (hbad : ∃ seg ∈ splitOnByte 38 frag, (61 : Nat) ∉ unquote seg) :
    handleConnection page s (strBytes "POST / HTTP/1.1\r\n" ++ rest) =
      ({ keepRunning := false, connected := false, data := none,
         msg := some failureMsg }, postResp failureBody, []) := by
  have hparse : postBodyParse (rest.take 4096) = none := by
    rw [List.take_of_length_le hlen, postBodyParse, hbody,
      extractFragment_append _ _ (by decide), parseFragments]
    refine parseLoop_none _ _ ?_
    rcases hbad with ⟨seg, hmem, hseg⟩
    exact ⟨seg, hmem, parsePair_of_not_mem seg hseg⟩
  rcases s with ⟨kr, cn, dt, mg⟩
  rw [handleConnection_post_fail _ _ _ hparse, List.drop_eq_nil_of_le hlen,
    show dt = none from hdata]

/-- Claim C3, witness: the fragment `token123` (a bare key) on a concrete POST. -/
theorem bare_key_fragment_fails_cleanly_witness :
    handleConnection [] initialState (strBytes "POST / HTTP/1.1\r\n" ++
        postBody (urlPre ++ 35 :: strBytes "token123")) =
      ({ keepRunning := false, connected := false, data := none,
         msg := some failureMsg }, postResp failureBody, []) :=
  bare_key_fragment_fails_cleanly [] initialState
    (postBody (urlPre ++ 35 :: strBytes "token123")) (strBytes "token123")
    rfl (by decide) (by decide) (by decide)

/-- Claim C4, counterexample: for a POST body URL with no `'#'` the parser does
NOT return the empty mapping; splitting the empty fragment yields one empty
token, which lacks `'='` and raises, so the result is a parse failure. -/
theorem no_hash_not_empty_mapping :
    parseFragments (extractFragment urlPre) ≠ some [] := by decide

/-- Claim C4, amended: for every POST body URL containing no `'#'` the fragment
is empty and parsing it is a parse failure (the single empty token produced by
the split has no `'='`), not an empty mapping. -/
theorem no_hash_parse_failure (url : List Nat) (h : (35 : Nat) ∉ url) :
    parseFragments (extractFragment url) = none := by
  rw [extractFragment_no35 url h]
  decide

/-- Claim C4, witness: the concrete URL `http://localhost:1000/` has no `'#'`. -/
theorem no_hash_parse_failure_witness :
    parseFragments (extractFragment urlPre) = none :=
  no_hash_parse_failure urlPre (by decide)

/-- Claim C5 (code bug): a connection whose request line begins with neither GET
nor POST does NOT leave the session fields unchanged.  `__handle_connection` sets
`self._connected = True` on entry (line 101) and the fall-through noise path
never clears it, contradicting the code's own comment at line 47 that the flag
"should be set to False at the end of the connection handler".  The handler does
write no response, but `_connected` flips from false to true and stays there. -/
theorem noise_connection_mutates_connected_flag :
    handleConnection [] initialState (strBytes "HEAD / HTTP/1.1\r\n") =
      ({ initialState with connected := true }, [], []) ∧
    initialState.connected = false :=
  ⟨rfl, rfl⟩

/-- Claim C6 (code bug): `start()` does not always terminate within the timeout.
After a single noise connection (request line `HEAD / HTTP/1.1`), `_connected`
is stuck at true, so the guard's loop condition `_keep_running or _connected`
holds at every subsequent wake-up no matter how far past the deadline the clock
is: the close effect never fires and the blocking call never returns. -/
theorem noise_connection_blocks_shutdown_forever (page : List Nat) (deadline : Nat)
    (wakes : List Nat) :
    (sysRun page deadline (SessionEvent.conn (strBytes "HEAD / HTTP/1.1\r\n") ::
        wakes.map SessionEvent.wake) ⟨initialState, false, 0⟩).closeCount = 0 ∧
    (sysRun page deadline (SessionEvent.conn (strBytes "HEAD / HTTP/1.1\r\n") ::
        wakes.map SessionEvent.wake) ⟨initialState, false, 0⟩).sess.connected = true := by
  rw [sysRun, List.foldl_cons]
  have hstep : sysStep page deadline ⟨initialState, false, 0⟩
      (SessionEvent.conn (strBytes "HEAD / HTTP/1.1\r\n")) =
      ⟨{ initialState with connected := true }, false, 0⟩ := by
    simp only [sysStep, handleConnection_noise_initial]
  rw [hstep]
  have h := wakes_preserve_connected page deadline wakes
    ⟨{ initialState with connected := true }, false, 0⟩ rfl rfl
  exact ⟨h.2.2, h.1⟩

/-- Claim C7, counterexample: the GET branch does not drain the request headers
up to the blank-line terminator.  On a GET with two header lines the handler
consumes only the first one (`reader.readuntil(b'\r\n')`, line 109), leaving
`Accept: b\r\n\r\n` unread, whereas draining to the blank line would leave
nothing. -/
theorem get_does_not_drain_headers :
    (handleConnection [] initialState
        (strBytes "GET / HTTP/1.1\r\nHost: a\r\nAccept: b\r\n\r\n")).2.2 =
      strBytes "Accept: b\r\n\r\n" ∧
    strBytes "Accept: b\r\n\r\n" ≠ ([] : List Nat) :=
  ⟨rfl, by decide⟩

/-- Claim C7, amended: on a GET request line the handler reads ONE further
segment, up to the first CRLF (not up to the blank-line terminator), writes the
200 OK response with `Content-Type: text/html` followed by the page payload,
clears `_connected`, and leaves `_keep_running`, `data` and `msg` untouched. -/
theorem get_reads_single_line_and_serves_page (page : List Nat) (s : SessionState)
    (a rest consumed rest2 : List Nat) (h10 : (10 : Nat) ∉ strBytes "GET" ++ a)
    (hcr : readUntilCRLF rest = some (consumed, rest2)) :
    handleConnection page s (((strBytes "GET" ++ a) ++ [10]) ++ rest) =
      ({ s with connected := false }, getRespHeader ++ page, rest2) := by
  have hrl := readLine_concrete_line (strBytes "GET" ++ a) rest h10
  simp only [handleConnection, hrl, get_pfx_getline, if_true, hcr]

/-- Claim C7, witness: a concrete GET request with two header lines; the
response is the 200 OK header block plus the page, and exactly one header line
has been consumed. -/
theorem get_reads_single_line_and_serves_page_witness :
    handleConnection [] initialState
        (strBytes "GET / HTTP/1.1\r\nHost: a\r\nAccept: b\r\n\r\n") =
      ({ initialState with connected := false }, getRespHeader ++ [],
       strBytes "Accept: b\r\n\r\n") := by
  rw [show strBytes "GET / HTTP/1.1\r\nHost: a\r\nAccept: b\r\n\r\n" =
      ((strBytes "GET" ++ strBytes " / HTTP/1.1\r") ++ [10]) ++
        strBytes "Host: a\r\nAccept: b\r\n\r\n" from by decide]
  exact get_reads_single_line_and_serves_page [] initialState
    (strBytes " / HTTP/1.1\r") (strBytes "Host: a\r\nAccept: b\r\n\r\n")
    (strBytes "Host: a\r\n") (strBytes "Accept: b\r\n\r\n") (by decide) (by decide)

/-- Claim C8: over every interleaving of guard wake-ups and connections starting
from a fresh run, the listening socket's close effect fires at most once, fires
exactly once in any run in which the guard finishes, and every step that fires
it starts from a state with `_keep_running` false and `_connected` false. -/
theorem socket_closed_at_most_once_and_only_idle (page : List Nat) (deadline : Nat)
    (events : List SessionEvent) (st : SysState)
    (h0 : st.guardDone = false) (h1 : st.closeCount = 0) :
    (sysRun page deadline events st).closeCount ≤ 1 ∧
    ((sysRun page deadline events st).guardDone = true →
      (sysRun page deadline events st).closeCount = 1) ∧
    traceClosesOnlyIdle page deadline events st = true := by
  have hinv := sysRun_inv page deadline events st (Or.inl ⟨h0, h1⟩)
  refine ⟨?_, ?_, traceClosesOnlyIdle_true page deadline events st⟩
  · rcases hinv with ⟨-, hc⟩ | ⟨-, hc⟩ <;> omega
  · intro hg
    rcases hinv with ⟨hg', -⟩ | ⟨-, hc⟩
    · rw [hg] at hg'
      cases hg'
    · exact hc

/-- Claim C8, witness: a run where the deadline passes and the guard closes the
socket on its next wake-up. -/
theorem socket_closed_at_most_once_and_only_idle_witness :
    (sysRun [] 3 [SessionEvent.wake 5, SessionEvent.wake 6]
        ⟨initialState, false, 0⟩).closeCount ≤ 1 ∧
    ((sysRun [] 3 [SessionEvent.wake 5, SessionEvent.wake 6]
        ⟨initialState, false, 0⟩).guardDone = true →
      (sysRun [] 3 [SessionEvent.wake 5, SessionEvent.wake 6]
        ⟨initialState, false, 0⟩).closeCount = 1) ∧
    traceClosesOnlyIdle [] 3 [SessionEvent.wake 5, SessionEvent.wake 6]
        ⟨initialState, false, 0⟩ = true :=
  socket_closed_at_most_once_and_only_idle [] 3
    [SessionEvent.wake 5, SessionEvent.wake 6] ⟨initialState, false, 0⟩ rfl rfl

/-- Claim C9: for every fragment segment whose percent-decoded form contains two
or more `'='` characters, parsing the segment succeeds, the key is the decoded
text before the first `'='`, and the value is exactly the decoded text between
the first and the second `'='` — everything after the second `'='` is silently
discarded, and decoding happens before splitting. -/
theorem decoded_segment_shifted_partition (seg : List Nat)
    (h : 2 ≤ (unquote seg).count 61) :
    parsePair seg = some ((unquote seg).takeWhile (· != 61),
      (((unquote seg).dropWhile (· != 61)).tail).takeWhile (· != 61)) :=
  parsePair_eq_of_mem seg (List.count_pos_iff.mp (by omega))

/-- Claim C9, witness: the segment `k%3Da=b` decodes to `k=a=b`, parses
successfully, and captures key `k` with value `a` (the encoded `'='` shifted the
partition and `b` was discarded). -/
theorem decoded_segment_shifted_partition_witness :
    parsePair (strBytes "k%3Da=b") = some (strBytes "k", strBytes "a") :=
  (decoded_segment_shifted_partition (strBytes "k%3Da=b") (by decide)).trans (by decide)

/-- Claim C10: a POST whose body is empty after taking the final segment of the
blank-line split takes the failure branch atomically: `self.data` is left
exactly as it was, the failure status message is set, the 200 OK failure
response is written, and `_keep_running` becomes false. -/
theorem empty_post_body_fails_atomically (page : List Nat) (s : SessionState)
    (rest : List Nat) (hlen : rest.length ≤ 4096) (hbody : lastSeg crlf2 rest = []) :
    handleConnection page s (strBytes "POST / HTTP/1.1\r\n" ++ rest) =
      ({ s with keepRunning := false, connected := false, msg := some failureMsg },
       postResp failureBody, []) := by
  have hparse : postBodyParse (rest.take 4096) = none := by
    rw [List.take_of_length_le hlen, postBodyParse, hbody]
    decide
  rw [handleConnection_post_fail page s rest hparse, List.drop_eq_nil_of_le hlen]

/-- Claim C10, witness: a POST whose read bytes end right at the blank-line
separator, so the extracted body is empty. -/
theorem empty_post_body_fails_atomically_witness :
    handleConnection [] initialState
        (strBytes "POST / HTTP/1.1\r\n" ++ strBytes "Host: a\r\n\r\n") =
      ({ initialState with
          keepRunning := false
          connected := false
          msg := some failureMsg }, postResp failureBody, []) :=
  empty_post_body_fails_atomically [] initialState (strBytes "Host: a\r\n\r\n")
    (by decide) (by decide)

end UrlFragmentFetch
